import Mathlib

/-!
A shallow embedding of the apollo-form state manipulation and validation
engine (FormManager / FormManipulator) together with theorems about the
behaviour of its public operations.

JavaScript runtime values stored inside a form state (values, errors,
touches) are modelled by the mutual inductives `Val` / `Fields`: an object
is an ordered association list of string keys, scalars cover the strings,
booleans and numbers the library manipulates, and `vUndefined` stands for the
JavaScript value undefined (also used as the result of a failed lookup).
Arrays are represented as objects with numeric string keys, which is
indistinguishable at the level of the get/set/flatten contract used here.
-/

mutual

inductive Val where
  | vUndefined : Val
  | vStr (s : String) : Val
  | vBool (b : Bool) : Val
  | vInt (n : Int) : Val
  | vObj (fields : Fields) : Val

inductive Fields where
  | nil : Fields
  | cons (key : String) (value : Val) (rest : Fields) : Fields

end

/- Structural deep equality on values, the model of lodash `_.isEqual` and
of strict comparison on the scalar leaves the code compares. -/
mutual

def Val.veq : Val → Val → Bool
  | .vUndefined, .vUndefined => true
  | .vStr a, .vStr b => a == b
  | .vBool a, .vBool b => a == b
  | .vInt a, .vInt b => a == b
  | .vObj a, .vObj b => Fields.feq a b
  | _, _ => false

def Fields.feq : Fields → Fields → Bool
  | .nil, .nil => true
  | .cons k v r, .cons k2 v2 r2 => k == k2 && Val.veq v v2 && Fields.feq r r2
  | _, _ => false

end

mutual

theorem Val.veq_refl : (a : Val) → Val.veq a a = true
  | .vUndefined => rfl
  | .vStr s => by simp [Val.veq]
  | .vBool b => by simp [Val.veq]
  | .vInt n => by simp [Val.veq]
  | .vObj fs => Fields.feq_refl fs

theorem Fields.feq_refl : (fs : Fields) → Fields.feq fs fs = true
  | .nil => rfl
  | .cons k v r => by simp [Fields.feq, Val.veq_refl v, Fields.feq_refl r]

end

/-- First binding of a key in an object, the model of JavaScript property
lookup on the association list representation. -/
def fieldsGet : Fields → String → Option Val
  | .nil, _ => none
  | .cons k2 v rest, k => if k2 = k then some v else fieldsGet rest k

/-- Property lookup defaulting to undefined, as a missing property reads in
JavaScript. -/
def fieldsGetD (fs : Fields) (k : String) : Val :=
  match fieldsGet fs k with
  | some v => v
  | none => .vUndefined

/-- Write a key in an object: replace the first binding in place, append a
new binding otherwise (JavaScript property assignment on the association
list representation, preserving key order). -/
def fieldsSet : Fields → String → Val → Fields
  | .nil, k, x => .cons k x .nil
  | .cons k2 v rest, k, x =>
      if k2 = k then .cons k x rest else .cons k2 v (fieldsSet rest k x)

/-- Whether an object has a key, the model of the JavaScript `in` operator
used by the custom-validator skip test in FormManipulator.validate. -/
def fieldsHasKey : Fields → String → Bool
  | .nil, _ => false
  | .cons k2 _ rest, k => k2 == k || fieldsHasKey rest k

/-- `key in value` for a value known to be an object; non-objects have no
keys here. -/
def jsIn (k : String) : Val → Bool
  | .vObj fs => fieldsHasKey fs k
  | _ => false

/-- JavaScript truthiness of a modelled value (`Boolean(v)`): a string is
truthy iff non-empty. -/
def truthy : Val → Bool
  | .vUndefined => false
  | .vStr s => !(s == "")
  | .vBool b => b
  | .vInt n => !(n == 0)
  | .vObj _ => true

/-- Split a dotted path into segments, the model of `key.split('.')`:
`"a.b"` gives `["a", "b"]`, `""` gives `[""]`; the result is never empty. -/
def splitPathAux : List Char → List Char → List String
  | [], acc => [String.mk acc.reverse]
  | c :: rest, acc =>
      if c = '.' then String.mk acc.reverse :: splitPathAux rest []
      else splitPathAux rest (c :: acc)

def splitPath (s : String) : List String := splitPathAux s.data []

theorem splitPathAux_ne_nil : ∀ (cs acc : List Char), splitPathAux cs acc ≠ []
  | [], acc => by simp [splitPathAux]
  | c :: rest, acc => by
      unfold splitPathAux
      split
      · simp
      · exact splitPathAux_ne_nil rest (c :: acc)

theorem splitPath_ne_nil (s : String) : splitPath s ≠ [] :=
  splitPathAux_ne_nil s.data []

/-- The fields of a value when it is an object, an empty object otherwise:
the container coercion lodash `_.set` applies to non-object intermediate
steps (destructive write on type conflict). -/
def asObjFields : Val → Fields
  | .vObj fs => fs
  | _ => .nil

/-- Model of lodash `_.get` over segment lists: undefined as soon as an
intermediate segment is missing or a non-container is traversed. -/
def lget : Val → List String → Val
  | v, [] => v
  | .vObj fs, k :: rest =>
      match fieldsGet fs k with
      | some c => lget c rest
      | none => .vUndefined
  | _, _ :: _ => .vUndefined

/-- Model of lodash `_.set` over segment lists: creates intermediate
containers as needed, overwrites non-container intermediates, and leaves a
non-object root unchanged. -/
def lset : Val → List String → Val → Val
  | v, [], _ => v
  | .vObj fs, [k], x => .vObj (fieldsSet fs k x)
  | .vObj fs, k :: k2 :: rest, x =>
      .vObj (fieldsSet fs k
        (lset (Val.vObj (asObjFields (fieldsGetD fs k))) (k2 :: rest) x))
  | v, _ :: _, _ => v

/- Model of lodash `_.merge`: source keys are merged into the destination
in order, objects recursively, undefined source leaves keeping an existing
destination value. -/
mutual

def lmergeVal : Val → Val → Val
  | d, .vUndefined => d
  | d, .vObj sf =>
      match d with
      | .vObj df => .vObj (lmergeFields df sf)
      | _ => .vObj sf
  | _, s => s

def lmergeFields : Fields → Fields → Fields
  | df, .nil => df
  | df, .cons k sv rest =>
      lmergeFields (fieldsSet df k (lmergeVal (fieldsGetD df k) sv)) rest

end

/-- Modelled from the spec: the repository's utils module (not present in
the sources) provides `getDeepStatus(record, path)`, a probe semantically
identical to `get` for dotted paths, returning undefined on absence. -/
def getDeepStatus (v : Val) (key : String) : Val :=
  lget v (splitPath key)

/-- Modelled from the spec: the utils module's `setDeepStatus(record, path,
value)` writes a value at a dotted path, creating intermediate containers
as needed. -/
def setDeepStatus (v : Val) (key : String) (x : Val) : Val :=
  lset v (splitPath key) x

def joinKey (pfx k : String) : String :=
  if pfx = "" then k else pfx ++ "." ++ k

/- Modelled from the spec: the utils module's `objectDeepPairs(record)`
enumerates every leaf `(path, value)` pair of a nested record in document
order of the keys; a leaf is any non-object value. -/
mutual

def Val.deepPairsAux : String → Val → List (String × Val)
  | pfx, .vObj fs => Fields.deepPairsAux pfx fs
  | pfx, v => [(pfx, v)]

def Fields.deepPairsAux : String → Fields → List (String × Val)
  | _, .nil => []
  | pfx, .cons k v rest =>
      Val.deepPairsAux (joinKey pfx k) v ++ Fields.deepPairsAux pfx rest

end

def objectDeepPairs (v : Val) : List (String × Val) :=
  Val.deepPairsAux "" v

/-- Model of the JavaScript `String.replace` with a one-character string
pattern: only the first occurrence is replaced. -/
def replaceFirstChar : List Char → Char → List Char → List Char
  | [], _, _ => []
  | c :: rest, t, rep =>
      if c = t then rep ++ rest else c :: replaceFirstChar rest t rep

/-- The path normalization FormManipulator.validate applies to a schema
violation path: `err.path.replace('[', '.').replace(']', '')`, which in
JavaScript touches only the first occurrence of each character. -/
def normalizePath (p : String) : String :=
  String.mk (replaceFirstChar (replaceFirstChar p.data '[' ['.']) ']' [])

/-- The normalization the claim describes: every bracket converted, every
opening bracket replaced by a dot and every closing bracket removed. Stated
for comparison with `normalizePath`, the code's behaviour. -/
def specNormalizeAll (p : String) : String :=
  String.mk (((p.data.map (fun c => if c = '[' then '.' else c))).filter
    (fun c => !(c == ']')))

/-- The persisted record per form instance (ApolloFormState in the source);
the external store holds exactly one such record per form name, so a
read-mutate-write cycle is modelled as a function on this state. -/
structure ApolloFormState where
  values : Val
  errors : Val
  touches : Val
  isValid : Bool
  loading : Bool
  existsChanges : Bool
  isSubmitted : Bool

/-- Construction-time parameters of a form (FormManagerParams together with
the pieces FormManipulator keeps): the optional free-form validate function,
the registered per-field custom validators in registration order, the schema
validator modelled by its exhaustive batch of (path, message) violations,
the initial snapshots, and the behaviour flags. `onSubmitConfigured` records
whether an on-submit handler exists, which is all submit's control flow
reads before invoking it. -/
structure FormConfig where
  validateHandler : Option (ApolloFormState → Val)
  customValidators : List (String × (Val → Val))
  validationSchema : Option (Val → List (String × String))
  initialState : Val
  initialErrors : Val
  initialTouches : Val
  validateOnMount : Bool
  resetOnSubmit : Bool
  onSubmitConfigured : Bool

namespace FormManipulator

/-- FormManipulator.setValue: equality short-circuit on the current value,
then write via deep path set; existsChanges becomes true unconditionally. -/
def setValue (s : ApolloFormState) (key : String) (nv : Val) : ApolloFormState :=
  { s with
      values :=
        if Val.veq (lget s.values (splitPath key)) nv then s.values
        else lset s.values (splitPath key) nv,
      existsChanges := true }

/-- FormManipulator.setError: write the message at the dotted path only when
it differs from the current one. -/
def setError (s : ApolloFormState) (key : String) (v : Val) : ApolloFormState :=
  { s with
      errors :=
        if Val.veq (getDeepStatus s.errors key) v then s.errors
        else setDeepStatus s.errors key v }

/-- FormManipulator.setTouched: same pattern as setError, on touches. -/
def setTouched (s : ApolloFormState) (key : String) (v : Val) : ApolloFormState :=
  { s with
      touches :=
        if Val.veq (getDeepStatus s.touches key) v then s.touches
        else setDeepStatus s.touches key v }

/-- FormManipulator.getValue. -/
def getValue (s : ApolloFormState) (key : String) : Val :=
  lget s.values (splitPath key)

/-- FormManipulator.getError (the deep copy the source takes is invisible in
a pure model). -/
def getError (s : ApolloFormState) (key : String) : Val :=
  getDeepStatus s.errors key

/-- FormManipulator.getTouched. -/
def getTouched (s : ApolloFormState) (key : String) : Val :=
  getDeepStatus s.touches key

end FormManipulator

/-- Step 1 and 2 of FormManipulator.validate: reset the errors tree to empty,
then, when a free-form validate function is configured, invoke it on the
reset state and merge its returned error tree into the empty errors. -/
def validateResetMerge (cfg : FormConfig) (s : ApolloFormState) : ApolloFormState :=
  { s with
      errors :=
        match cfg.validateHandler with
        | some h =>
            lmergeVal (Val.vObj Fields.nil) (h { s with errors := Val.vObj Fields.nil })
        | none => Val.vObj Fields.nil }

/-- One iteration of the custom-validator loop in FormManipulator.validate:
skip when the registered dotted path occurs as a property of the errors
object (the JavaScript `in` test), otherwise invoke the validator on the
current value at the path and set a truthy result as the error there. -/
def applyCustomValidator (s : ApolloFormState) (kf : String × (Val → Val)) : ApolloFormState :=
  if jsIn kf.1 s.errors then s
  else if truthy (kf.2 (lget s.values (splitPath kf.1))) then
    FormManipulator.setError s kf.1 (kf.2 (lget s.values (splitPath kf.1)))
  else s

/-- Step 3 of FormManipulator.validate: fold the custom-validator loop over
the registry in registration order. -/
def validateCustom (cfg : FormConfig) (s : ApolloFormState) : ApolloFormState :=
  List.foldl applyCustomValidator s cfg.customValidators

/-- One schema violation applied in FormManipulator.validate: the violation
path is normalized by `path.replace('[', '.').replace(']', '')` and the
message set there. -/
def applySchemaError (s : ApolloFormState) (pm : String × String) : ApolloFormState :=
  FormManipulator.setError s (normalizePath pm.1) (Val.vStr pm.2)

/-- Step 4 of FormManipulator.validate: when a schema is configured, collect
its exhaustive violations over the current values and set each one. -/
def validateSchema (cfg : FormConfig) (s : ApolloFormState) : ApolloFormState :=
  match cfg.validationSchema with
  | some sch => List.foldl applySchemaError s (sch s.values)
  | none => s

/-- The error recomputation of FormManipulator.validate: steps 1 to 4 in
source order. -/
def validateErrorsStage (cfg : FormConfig) (s : ApolloFormState) : ApolloFormState :=
  validateSchema cfg (validateCustom cfg (validateResetMerge cfg s))

/-- The allTouched marking loop of FormManipulator.validate: every leaf pair
of the errors tree gets touched set to true at its path. -/
def validateMark (s : ApolloFormState) : ApolloFormState :=
  { s with
      touches :=
        List.foldl (fun t pr => lset t (splitPath pr.1) (Val.vBool true))
          s.touches (objectDeepPairs s.errors) }

/-- FormManipulator.validate: recompute errors from the three sources, mark
touches when allTouched is requested, and set isValid to the negation of
the existence of a truthy error leaf. -/
def FormManipulator.validate (cfg : FormConfig) (s : ApolloFormState)
    (allTouched : Bool) : ApolloFormState :=
  { (if allTouched then validateMark (validateErrorsStage cfg s)
     else validateErrorsStage cfg s) with
      isValid :=
        !((objectDeepPairs (validateErrorsStage cfg s).errors).any
          (fun pr => truthy pr.2)) }

/-- FormManipulator.reset: values from the override (replacement value or
transform of the current values) or the initial values; errors and touches
from the initial snapshots; every other field from the construction-time
default state. -/
def FormManipulator.reset (cfg : FormConfig) (s : ApolloFormState)
    (getState : Option (Sum Val (Val → Val))) : ApolloFormState :=
  { values :=
      match getState with
      | some (Sum.inl v) => v
      | some (Sum.inr f) => f s.values
      | none => cfg.initialState,
    errors := cfg.initialErrors,
    touches := cfg.initialTouches,
    isValid := true,
    loading := false,
    existsChanges := false,
    isSubmitted := false }

namespace FormManager

/-- The record the constructor's first `get()` writes into an empty store:
the default state plus the initial values, errors and touches. -/
def initStoreState (cfg : FormConfig) : ApolloFormState :=
  { values := cfg.initialState,
    errors := cfg.initialErrors,
    touches := cfg.initialTouches,
    isValid := true,
    loading := false,
    existsChanges := false,
    isSubmitted := false }

/-- The state the FormManager constructor leaves in a previously empty
store: `get()` initializes the record, then `validate(validateOnMount)`
runs unconditionally, the flag only being forwarded as allTouched. -/
def construct (cfg : FormConfig) : ApolloFormState :=
  FormManipulator.validate cfg (initStoreState cfg) cfg.validateOnMount

/-- FormManager.setFieldValue: mark the field touched when it was not,
set the value, re-validate with allTouched=false, write back. -/
def setFieldValue (cfg : FormConfig) (s : ApolloFormState) (key : String)
    (nv : Val) : ApolloFormState :=
  FormManipulator.validate cfg
    (FormManipulator.setValue
      (if truthy (getDeepStatus s.touches key) then s
       else FormManipulator.setTouched s key (Val.vBool true))
      key nv)
    false

/-- FormManager.setFieldError: set the single error, then recompute isValid
as `Boolean(errorsPairs.find(el => Boolean(el[1])))` -- literally the
existence of a truthy error leaf, with no negation. -/
def setFieldError (s : ApolloFormState) (key : String) (err : Val) : ApolloFormState :=
  { FormManipulator.setError s key err with
      isValid :=
        (objectDeepPairs (FormManipulator.setError s key err).errors).any
          (fun pr => truthy pr.2) }

/-- FormManager.setErrors: replace the errors tree wholesale; no other
field, isValid included, is recomputed. -/
def setErrors (s : ApolloFormState) (errors : Val) : ApolloFormState :=
  { s with errors := errors }

/-- FormManager.setValues: replace the values tree wholesale. -/
def setValues (s : ApolloFormState) (vals : Val) : ApolloFormState :=
  { s with values := vals }

/-- FormManager.setTouches: replace the touches tree wholesale. -/
def setTouches (s : ApolloFormState) (t : Val) : ApolloFormState :=
  { s with touches := t }

/-- FormManager.setFieldTouched. -/
def setFieldTouched (s : ApolloFormState) (key : String) (b : Bool) : ApolloFormState :=
  FormManipulator.setTouched s key (Val.vBool b)

/-- FormManager.setIsValid: the explicit escape hatch. -/
def setIsValid (s : ApolloFormState) (b : Bool) : ApolloFormState :=
  { s with isValid := b }

/-- The state submit builds before deciding whether to invoke the handler:
validated with allTouched=true and flagged submitted. -/
def submitValidated (cfg : FormConfig) (s : ApolloFormState) : ApolloFormState :=
  { FormManipulator.validate cfg s true with isSubmitted := true }

/-- Whether submit invokes the configured on-submit handler: a handler
exists and the validated state is valid. -/
def submitInvokesHandler (cfg : FormConfig) (s : ApolloFormState) : Bool :=
  cfg.onSubmitConfigured && (submitValidated cfg s).isValid

/-- The first state submit writes back to the store: with loading=true when
the handler is about to be invoked, the validated submitted state alone
otherwise. -/
def submitWritten (cfg : FormConfig) (s : ApolloFormState) : ApolloFormState :=
  if cfg.onSubmitConfigured && (submitValidated cfg s).isValid then
    { submitValidated cfg s with loading := true }
  else submitValidated cfg s

/-- The settlement continuation of submit, taking the state captured at
handler invocation: both the then and the catch branch clear loading and
write back; the catch branch ignores the rejection value entirely, so the
failure is swallowed and no error value enters the state. On success the
optional resetOnSubmit reset applies first. -/
def submitSettle (cfg : FormConfig) (sAtInvoke : ApolloFormState)
    (failed : Bool) : ApolloFormState :=
  if failed then { sAtInvoke with loading := false }
  else if cfg.resetOnSubmit then
    FormManipulator.reset cfg { sAtInvoke with loading := false } none
  else { sAtInvoke with loading := false }

/-- FormManager.reset: Manipulator reset, re-validate with the
construction-time validateOnMount policy, clear isSubmitted and
existsChanges, write back. -/
def reset (cfg : FormConfig) (s : ApolloFormState)
    (getState : Option (Sum Val (Val → Val))) : ApolloFormState :=
  { FormManipulator.validate cfg (FormManipulator.reset cfg s getState)
      cfg.validateOnMount with
    isSubmitted := false,
    existsChanges := false }

end FormManager

theorem fieldsGet_set_self :
    ∀ (fs : Fields) (k : String) (x : Val),
      fieldsGet (fieldsSet fs k x) k = some x
  | .nil, k, x => by simp [fieldsSet, fieldsGet]
  | .cons k2 v r, k, x => by
      by_cases h : k2 = k <;>
        simp [fieldsSet, fieldsGet, h, fieldsGet_set_self r k x]

theorem lget_lset_self :
    ∀ (p : List String) (fs : Fields) (x : Val), p ≠ [] →
      lget (lset (Val.vObj fs) p x) p = x := by
  intro p
  induction p with
  | nil => intro fs x h; exact absurd rfl h
  | cons k rest ih =>
      intro fs x _
      cases rest with
      | nil => simp [lset, lget, fieldsGet_set_self]
      | cons k2 r2 =>
          simp only [lset, lget, fieldsGet_set_self]
          exact ih _ x (by simp)

theorem lget_vObjNil (key : String) :
    getDeepStatus (Val.vObj Fields.nil) key = Val.vUndefined := by
  unfold getDeepStatus
  rcases h : splitPath key with _ | ⟨k, rest⟩
  · exact absurd h (splitPath_ne_nil key)
  · simp [lget, fieldsGet]

theorem validateResetMerge_shape (cfg : FormConfig) (s : ApolloFormState) :
    ∃ E, validateResetMerge cfg s = { s with errors := E } :=
  ⟨_, rfl⟩

theorem setError_shape (s : ApolloFormState) (key : String) (v : Val) :
    ∃ E, FormManipulator.setError s key v = { s with errors := E } :=
  ⟨_, rfl⟩

theorem applyCustomValidator_shape (s : ApolloFormState) (kf : String × (Val → Val)) :
    ∃ E, applyCustomValidator s kf = { s with errors := E } := by
  unfold applyCustomValidator
  split
  · exact ⟨s.errors, rfl⟩
  · split
    · exact ⟨_, rfl⟩
    · exact ⟨s.errors, rfl⟩

theorem applySchemaError_shape (s : ApolloFormState) (pm : String × String) :
    ∃ E, applySchemaError s pm = { s with errors := E } :=
  ⟨_, rfl⟩

theorem foldl_errors_shape {α : Type} (f : ApolloFormState → α → ApolloFormState)
    (hf : ∀ s a, ∃ E, f s a = { s with errors := E }) :
    ∀ (l : List α) (s : ApolloFormState),
      ∃ E, List.foldl f s l = { s with errors := E } := by
  intro l
  induction l with
  | nil => intro s; exact ⟨s.errors, rfl⟩
  | cons a l ih =>
      intro s
      obtain ⟨E1, h1⟩ := hf s a
      obtain ⟨E2, h2⟩ := ih (f s a)
      exact ⟨E2, by rw [List.foldl_cons, h2, h1]⟩

theorem validateCustom_shape (cfg : FormConfig) (s : ApolloFormState) :
    ∃ E, validateCustom cfg s = { s with errors := E } :=
  foldl_errors_shape applyCustomValidator applyCustomValidator_shape
    cfg.customValidators s

theorem validateSchema_shape (cfg : FormConfig) (s : ApolloFormState) :
    ∃ E, validateSchema cfg s = { s with errors := E } := by
  unfold validateSchema
  cases h : cfg.validationSchema with
  | none => exact ⟨s.errors, rfl⟩
  | some sch =>
      exact foldl_errors_shape applySchemaError applySchemaError_shape
        (sch s.values) s

theorem validateErrorsStage_shape (cfg : FormConfig) (s : ApolloFormState) :
    ∃ E, validateErrorsStage cfg s = { s with errors := E } := by
  obtain ⟨E1, h1⟩ := validateResetMerge_shape cfg s
  obtain ⟨E2, h2⟩ := validateCustom_shape cfg (validateResetMerge cfg s)
  obtain ⟨E3, h3⟩ := validateSchema_shape cfg (validateCustom cfg (validateResetMerge cfg s))
  refine ⟨E3, ?_⟩
  unfold validateErrorsStage
  rw [h3, h2, h1]

theorem validate_shape (cfg : FormConfig) (s : ApolloFormState) (b : Bool) :
    ∃ E T V, FormManipulator.validate cfg s b =
      { s with errors := E, touches := T, isValid := V } := by
  obtain ⟨E, hE⟩ := validateErrorsStage_shape cfg s
  unfold FormManipulator.validate validateMark
  rw [hE]
  cases b
  · exact ⟨_, _, _, rfl⟩
  · exact ⟨_, _, _, rfl⟩

theorem validate_values (cfg : FormConfig) (s : ApolloFormState) (b : Bool) :
    (FormManipulator.validate cfg s b).values = s.values := by
  obtain ⟨E, T, V, h⟩ := validate_shape cfg s b
  rw [h]

theorem validate_loading (cfg : FormConfig) (s : ApolloFormState) (b : Bool) :
    (FormManipulator.validate cfg s b).loading = s.loading := by
  obtain ⟨E, T, V, h⟩ := validate_shape cfg s b
  rw [h]

theorem validate_existsChanges (cfg : FormConfig) (s : ApolloFormState) (b : Bool) :
    (FormManipulator.validate cfg s b).existsChanges = s.existsChanges := by
  obtain ⟨E, T, V, h⟩ := validate_shape cfg s b
  rw [h]

theorem validate_isSubmitted (cfg : FormConfig) (s : ApolloFormState) (b : Bool) :
    (FormManipulator.validate cfg s b).isSubmitted = s.isSubmitted := by
  obtain ⟨E, T, V, h⟩ := validate_shape cfg s b
  rw [h]

theorem validate_errors (cfg : FormConfig) (s : ApolloFormState) (b : Bool) :
    (FormManipulator.validate cfg s b).errors = (validateErrorsStage cfg s).errors := by
  unfold FormManipulator.validate validateMark
  cases b <;> rfl

theorem validate_isValid (cfg : FormConfig) (s : ApolloFormState) (b : Bool) :
    (FormManipulator.validate cfg s b).isValid =
      !((objectDeepPairs (validateErrorsStage cfg s).errors).any
        (fun pr => truthy pr.2)) := by
  unfold FormManipulator.validate
  rfl

theorem validate_touches_false (cfg : FormConfig) (s : ApolloFormState) :
    (FormManipulator.validate cfg s false).touches = s.touches := by
  obtain ⟨E, hE⟩ := validateErrorsStage_shape cfg s
  unfold FormManipulator.validate
  simp only [Bool.false_eq_true, if_false]
  rw [hE]

theorem validate_touches_true (cfg : FormConfig) (s : ApolloFormState) :
    (FormManipulator.validate cfg s true).touches =
      List.foldl (fun t pr => lset t (splitPath pr.1) (Val.vBool true))
        s.touches (objectDeepPairs (validateErrorsStage cfg s).errors) := by
  obtain ⟨E, hE⟩ := validateErrorsStage_shape cfg s
  unfold FormManipulator.validate validateMark
  simp only [if_true]
  rw [hE]

/-- A form with no validators, empty initial snapshots and no handlers. -/
def cfgEmpty : FormConfig :=
  { validateHandler := none,
    customValidators := [],
    validationSchema := none,
    initialState := Val.vObj Fields.nil,
    initialErrors := Val.vObj Fields.nil,
    initialTouches := Val.vObj Fields.nil,
    validateOnMount := false,
    resetOnSubmit := false,
    onSubmitConfigured := false }

/-- C5: for every state whose values form a nested record, every path and
every value, reading the path right after FormManipulator.setValue wrote the
value there returns a value deep-equal to it (deep equality being lodash
isEqual, modelled by Val.veq); the equality short-circuit inside setValue
makes the read return the previously stored, deep-equal value in the
skipped-write case. -/
theorem c5_set_get_roundtrip (s : ApolloFormState) (key : String) (nv : Val)
    (fs : Fields) (hv : s.values = Val.vObj fs) :
    Val.veq (FormManipulator.getValue
      (FormManipulator.setValue s key nv) key) nv = true := by
  show Val.veq
    (lget (if Val.veq (lget s.values (splitPath key)) nv then s.values
           else lset s.values (splitPath key) nv) (splitPath key)) nv = true
  cases hveq : Val.veq (lget s.values (splitPath key)) nv
  · simp only [hveq, Bool.false_eq_true, if_false]
    rw [hv, lget_lset_self (splitPath key) fs nv (splitPath_ne_nil key)]
    exact Val.veq_refl nv
  · simp only [hveq, if_true]

/-- Witness for C5 at a concrete nested path on a concrete state. -/
theorem c5_witness :
    Val.veq (FormManipulator.getValue
      (FormManipulator.setValue (FormManager.initStoreState cfgEmpty) "a.b"
        (Val.vStr "x")) "a.b") (Val.vStr "x") = true :=
  c5_set_get_roundtrip (FormManager.initStoreState cfgEmpty) "a.b"
    (Val.vStr "x") Fields.nil rfl

/-- C9: validate with allTouched=false recomputes only errors and isValid;
values, touches, loading, existsChanges and isSubmitted of the resulting
state are those of the input state (validator functions are pure in this
model, as the claim assumes). -/
theorem c9_validate_frame (cfg : FormConfig) (s : ApolloFormState) :
    (FormManipulator.validate cfg s false).values = s.values ∧
    (FormManipulator.validate cfg s false).touches = s.touches ∧
    (FormManipulator.validate cfg s false).loading = s.loading ∧
    (FormManipulator.validate cfg s false).existsChanges = s.existsChanges ∧
    (FormManipulator.validate cfg s false).isSubmitted = s.isSubmitted :=
  ⟨validate_values cfg s false, validate_touches_false cfg s,
   validate_loading cfg s false, validate_existsChanges cfg s false,
   validate_isSubmitted cfg s false⟩

/-- C2 (amended): reset() with no override writes back exactly the
construction-time state: values are restored to the initial values and
isSubmitted/existsChanges cleared, while errors and touches are the result
of re-running the validation pass (with the validateOnMount policy) over
the initial snapshots, not the raw snapshots themselves. -/
theorem c2_reset_writes_construction_state (cfg : FormConfig) (s : ApolloFormState) :
    FormManager.reset cfg s none = FormManager.construct cfg ∧
    (FormManager.reset cfg s none).values = cfg.initialState ∧
    (FormManager.reset cfg s none).isSubmitted = false ∧
    (FormManager.reset cfg s none).existsChanges = false := by
  have hinit : FormManipulator.reset cfg s none = FormManager.initStoreState cfg := rfl
  have hmain : FormManager.reset cfg s none = FormManager.construct cfg := by
    unfold FormManager.reset FormManager.construct
    rw [hinit]
    obtain ⟨E, T, V, h⟩ :=
      validate_shape cfg (FormManager.initStoreState cfg) cfg.validateOnMount
    rw [h]
    rfl
  refine ⟨hmain, ?_, rfl, rfl⟩
  rw [hmain]
  unfold FormManager.construct
  rw [validate_values]
  rfl

/-- A form whose initial errors snapshot is non-empty but which has no
validator of any kind, after one field mutation. -/
def cfgC2 : FormConfig :=
  { cfgEmpty with
      initialErrors := Val.vObj (Fields.cons "a" (Val.vStr "init") Fields.nil) }

def sC2 : ApolloFormState :=
  FormManager.setFieldValue cfgC2 (FormManager.construct cfgC2) "b" (Val.vStr "x")

/-- C2 counterexample: on a form whose construction-time initial errors
snapshot is the non-empty record with "init" at key a and which has no
validators, reset() writes back an empty errors tree -- the validation pass
that reset runs clears the initial errors -- so the errors of the written
state are not the construction-time snapshot the claim promises. -/
theorem c2_counterexample :
    (FormManager.reset cfgC2 sC2 none).errors = Val.vObj Fields.nil ∧
    cfgC2.initialErrors = Val.vObj (Fields.cons "a" (Val.vStr "init") Fields.nil) ∧
    (FormManager.reset cfgC2 sC2 none).errors ≠ cfgC2.initialErrors := by
  refine ⟨rfl, rfl, ?_⟩
  intro h
  exact Fields.noConfusion (Val.vObj.inj h)

def sC1 : ApolloFormState := FormManager.construct cfgEmpty

/-- C1: on a freshly constructed empty form, setFieldError("a", "msg")
writes a state whose errors tree holds the non-empty leaf "msg" at a and
whose isValid flag is true -- the code computes isValid as the existence of
a truthy error leaf, without the negation FormManipulator.validate applies
to the same expression; and setErrors writes a non-empty errors tree while
leaving isValid at its previous value true. Both written states violate the
claimed invariant isValid = (no non-empty error leaf). -/
theorem c1_isValid_bug :
    (FormManager.setFieldError sC1 "a" (Val.vStr "msg")).isValid = true ∧
    getDeepStatus (FormManager.setFieldError sC1 "a" (Val.vStr "msg")).errors "a" =
      Val.vStr "msg" ∧
    truthy (Val.vStr "msg") = true ∧
    (FormManager.setErrors sC1
      (Val.vObj (Fields.cons "a" (Val.vStr "m") Fields.nil))).isValid = true ∧
    getDeepStatus (FormManager.setErrors sC1
      (Val.vObj (Fields.cons "a" (Val.vStr "m") Fields.nil))).errors "a" =
      Val.vStr "m" :=
  ⟨rfl, rfl, rfl, rfl, rfl⟩

/-- C3 (amended): during validate with a single registered custom validator
at path p and no schema, the validator is skipped exactly when the dotted
path string p occurs literally as a top-level key of the errors object left
by the free-form validate function (the JavaScript `in` test); otherwise it
is invoked with the current value at p and a truthy message is set at p --
so for nested dotted paths an error produced by the free-form function at
the nested position does not cause a skip. -/
theorem c3_skip_checks_toplevel_key (cfg : FormConfig) (s : ApolloFormState)
    (p : String) (f : Val → Val)
    (hv : cfg.customValidators = [(p, f)]) (hs : cfg.validationSchema = none) :
    (jsIn p (validateResetMerge cfg s).errors = true →
      (FormManipulator.validate cfg s false).errors =
        (validateResetMerge cfg s).errors) ∧
    (jsIn p (validateResetMerge cfg s).errors = false →
      truthy (f (lget s.values (splitPath p))) = true →
      (FormManipulator.validate cfg s false).errors =
        (FormManipulator.setError (validateResetMerge cfg s) p
          (f (lget s.values (splitPath p)))).errors) := by
  obtain ⟨E1, h1⟩ := validateResetMerge_shape cfg s
  have hbase : (FormManipulator.validate cfg s false).errors =
      (applyCustomValidator (validateResetMerge cfg s) (p, f)).errors := by
    rw [validate_errors]
    unfold validateErrorsStage validateSchema validateCustom
    rw [hs, hv]
    rfl
  constructor
  · intro hin
    have hin2 : jsIn (p, f).1 (validateResetMerge cfg s).errors = true := hin
    rw [hbase]
    unfold applyCustomValidator
    simp only [hin2, if_true]
  · intro hin htr
    have hin2 : jsIn (p, f).1 (validateResetMerge cfg s).errors = false := hin
    have hvv : (validateResetMerge cfg s).values = s.values := by rw [h1]
    have htr2 : truthy ((p, f).2
        (lget (validateResetMerge cfg s).values (splitPath (p, f).1))) = true := by
      rw [hvv]; exact htr
    rw [hbase]
    unfold applyCustomValidator
    simp only [hin2, Bool.false_eq_true, if_false, htr2, if_true]
    rw [hvv]

/-- A free-form validate function producing a nested error at a.b together
with a custom validator registered at the dotted path a.b. -/
def cfgC3 : FormConfig :=
  { cfgEmpty with
      validateHandler := some (fun _ =>
        Val.vObj (Fields.cons "a"
          (Val.vObj (Fields.cons "b" (Val.vStr "first") Fields.nil)) Fields.nil)),
      customValidators := [("a.b", fun _ => Val.vStr "second")] }

def sC3 : ApolloFormState := FormManager.initStoreState cfgC3

/-- C3 counterexample: the free-form validate function already produced the
error "first" at the nested path a.b, yet the custom validator registered at
a.b is not skipped -- the final error at a.b is its message "second", because
the skip test asks whether the whole string "a.b" is a top-level key of the
errors object, which it is not. -/
theorem c3_counterexample :
    getDeepStatus (validateResetMerge cfgC3 sC3).errors "a.b" = Val.vStr "first" ∧
    jsIn "a.b" (validateResetMerge cfgC3 sC3).errors = false ∧
    getDeepStatus (FormManipulator.validate cfgC3 sC3 false).errors "a.b" =
      Val.vStr "second" ∧
    Val.vStr "second" ≠ Val.vStr "first" := by
  refine ⟨rfl, rfl, rfl, ?_⟩
  intro h
  exact absurd (Val.vStr.inj h) (by decide)

/-- A free-form validate function producing a top-level error at c together
with a custom validator registered at c: here the skip applies. -/
def cfgC3b : FormConfig :=
  { cfgEmpty with
      validateHandler := some (fun _ =>
        Val.vObj (Fields.cons "c" (Val.vStr "first") Fields.nil)),
      customValidators := [("c", fun _ => Val.vStr "second")] }

/-- Witness for C3 discharging both branches: the top-level key case skips
the validator, the nested dotted case runs it. -/
theorem c3_witness :
    (FormManipulator.validate cfgC3b (FormManager.initStoreState cfgC3b) false).errors =
      (validateResetMerge cfgC3b (FormManager.initStoreState cfgC3b)).errors ∧
    (FormManipulator.validate cfgC3 sC3 false).errors =
      (FormManipulator.setError (validateResetMerge cfgC3 sC3) "a.b"
        (Val.vStr "second")).errors :=
  ⟨(c3_skip_checks_toplevel_key cfgC3b (FormManager.initStoreState cfgC3b) "c"
      (fun _ => Val.vStr "second") rfl rfl).1 rfl,
   (c3_skip_checks_toplevel_key cfgC3 sC3 "a.b"
      (fun _ => Val.vStr "second") rfl rfl).2 rfl rfl⟩

/-- C4 (amended): a schema violation's message is set at the path obtained
by replacing only the first opening bracket with a dot and removing only
the first closing bracket (JavaScript String.replace with a string pattern
touches a single occurrence), not at the fully bracket-normalized path. -/
theorem c4_normalize_first_occurrence (cfg : FormConfig) (s : ApolloFormState)
    (path msg : String)
    (h1 : cfg.validateHandler = none) (h2 : cfg.customValidators = [])
    (h3 : cfg.validationSchema = some (fun _ => [(path, msg)])) :
    getDeepStatus (FormManipulator.validate cfg s false).errors
      (normalizePath path) = Val.vStr msg := by
  have hbase : (FormManipulator.validate cfg s false).errors =
      (applySchemaError (validateResetMerge cfg s) (path, msg)).errors := by
    rw [validate_errors]
    unfold validateErrorsStage validateSchema validateCustom
    rw [h2, h3]
    rfl
  have herr : (validateResetMerge cfg s).errors = Val.vObj Fields.nil := by
    unfold validateResetMerge
    rw [h1]
  rw [hbase]
  show getDeepStatus
      (if Val.veq (getDeepStatus (validateResetMerge cfg s).errors (normalizePath path))
          (Val.vStr msg)
       then (validateResetMerge cfg s).errors
       else setDeepStatus (validateResetMerge cfg s).errors (normalizePath path)
          (Val.vStr msg))
      (normalizePath path) = Val.vStr msg
  rw [herr, lget_vObjNil]
  show getDeepStatus
      (setDeepStatus (Val.vObj Fields.nil) (normalizePath path) (Val.vStr msg))
      (normalizePath path) = Val.vStr msg
  exact lget_lset_self (splitPath (normalizePath path)) Fields.nil (Val.vStr msg)
    (splitPath_ne_nil (normalizePath path))

/-- A schema validator reporting one violation at a two-index bracket path. -/
def cfgC4x : FormConfig :=
  { cfgEmpty with validationSchema := some (fun _ => [("a[0].b[1]", "msg")]) }

def sC4 : ApolloFormState := FormManager.initStoreState cfgC4x

/-- C4 counterexample: for the violation path a[0].b[1], the claimed
normalization is a.0.b.1, but the code produces a.0.b[1]: after validate the
errors tree holds the message at a.0.b[1] -- the segment named b[1]
literally -- and holds nothing at a.0.b.1. -/
theorem c4_counterexample :
    normalizePath "a[0].b[1]" = "a.0.b[1]" ∧
    specNormalizeAll "a[0].b[1]" = "a.0.b.1" ∧
    getDeepStatus (FormManipulator.validate cfgC4x sC4 false).errors "a.0.b.1" =
      Val.vUndefined ∧
    getDeepStatus (FormManipulator.validate cfgC4x sC4 false).errors "a.0.b[1]" =
      Val.vStr "msg" :=
  ⟨rfl, rfl, rfl, rfl⟩

/-- A schema validator reporting one violation at a single-index bracket
path, used to witness the amended C4. -/
def cfgC4w : FormConfig :=
  { cfgEmpty with validationSchema := some (fun _ => [("x[2].y", "m")]) }

/-- Witness for C4 at a concrete violation path. -/
theorem c4_witness :
    getDeepStatus (FormManipulator.validate cfgC4w
      (FormManager.initStoreState cfgC4w) false).errors
      (normalizePath "x[2].y") = Val.vStr "m" :=
  c4_normalize_first_occurrence cfgC4w (FormManager.initStoreState cfgC4w)
    "x[2].y" "m" rfl rfl rfl

/-- C6 (amended): validate with allTouched=true performs a touched=true
write at the path of every leaf pair of the recomputed errors tree, in
document order -- every leaf, regardless of whether it is a non-empty
string; empty or undefined error leaves are marked as well. -/
theorem c6_marks_every_error_leaf (cfg : FormConfig) (s : ApolloFormState) :
    (FormManipulator.validate cfg s true).touches =
      List.foldl (fun t pr => lset t (splitPath pr.1) (Val.vBool true))
        s.touches (objectDeepPairs (FormManipulator.validate cfg s false).errors) := by
  rw [validate_errors, validate_touches_true]

/-- A free-form validate function whose error tree holds the empty string
at key a. -/
def cfgC6 : FormConfig :=
  { cfgEmpty with
      validateHandler := some (fun _ =>
        Val.vObj (Fields.cons "a" (Val.vStr "") Fields.nil)) }

def sC6 : ApolloFormState := FormManager.initStoreState cfgC6

/-- C6 counterexample: after validate with allTouched=true the error leaf
at a is the empty string -- not a non-empty string -- yet the previously
untouched path a has been newly marked touched=true, which the claim rules
out. -/
theorem c6_counterexample :
    getDeepStatus (FormManipulator.validate cfgC6 sC6 true).errors "a" = Val.vStr "" ∧
    truthy (getDeepStatus (FormManipulator.validate cfgC6 sC6 true).errors "a") = false ∧
    getDeepStatus sC6.touches "a" = Val.vUndefined ∧
    getDeepStatus (FormManipulator.validate cfgC6 sC6 true).touches "a" = Val.vBool true :=
  ⟨rfl, rfl, rfl, rfl⟩

/-- C7: when no on-submit handler is configured or the validation pass of
submit leaves the state invalid, the state submit writes back has
isSubmitted=true and an unchanged loading flag, and the handler is not
invoked. -/
theorem c7_submit_invalid_or_no_handler (cfg : FormConfig) (s : ApolloFormState)
    (h : cfg.onSubmitConfigured = false ∨
         (FormManipulator.validate cfg s true).isValid = false) :
    (FormManager.submitWritten cfg s).isSubmitted = true ∧
    (FormManager.submitWritten cfg s).loading = s.loading ∧
    FormManager.submitInvokesHandler cfg s = false := by
  have hcond : (cfg.onSubmitConfigured &&
      (FormManager.submitValidated cfg s).isValid) = false := by
    have hv : (FormManager.submitValidated cfg s).isValid =
        (FormManipulator.validate cfg s true).isValid := rfl
    rcases h with h | h
    · rw [h]; exact Bool.false_and _
    · rw [hv, h]; exact Bool.and_false _
  have hw : FormManager.submitWritten cfg s = FormManager.submitValidated cfg s := by
    unfold FormManager.submitWritten
    rw [hcond]
    simp only [Bool.false_eq_true, if_false]
  refine ⟨?_, ?_, hcond⟩
  · rw [hw]
    rfl
  · rw [hw]
    show (FormManipulator.validate cfg s true).loading = s.loading
    exact validate_loading cfg s true

/-- Witness for C7: a form with no on-submit handler. -/
theorem c7_witness :
    (FormManager.submitWritten cfgEmpty (FormManager.initStoreState cfgEmpty)).isSubmitted = true ∧
    (FormManager.submitWritten cfgEmpty (FormManager.initStoreState cfgEmpty)).loading =
      (FormManager.initStoreState cfgEmpty).loading ∧
    FormManager.submitInvokesHandler cfgEmpty (FormManager.initStoreState cfgEmpty) = false :=
  c7_submit_invalid_or_no_handler cfgEmpty (FormManager.initStoreState cfgEmpty) (Or.inl rfl)

/-- C8: when submit did invoke the handler and the handler's outcome fails,
the catch continuation writes back the captured state with loading=false
and nothing else changed: errors, touches and isValid are those of the
validation pass, values and existsChanges those of the original state,
isSubmitted stays true, and no rejection value enters any field (the catch
callback ignores its argument and returns normally, so nothing propagates
to the caller). -/
theorem c8_submit_failure_swallows (cfg : FormConfig) (s : ApolloFormState)
    (h : FormManager.submitInvokesHandler cfg s = true) :
    (FormManager.submitSettle cfg (FormManager.submitWritten cfg s) true).loading = false ∧
    (FormManager.submitSettle cfg (FormManager.submitWritten cfg s) true).isSubmitted = true ∧
    (FormManager.submitSettle cfg (FormManager.submitWritten cfg s) true).errors =
      (FormManipulator.validate cfg s true).errors ∧
    (FormManager.submitSettle cfg (FormManager.submitWritten cfg s) true).values = s.values ∧
    (FormManager.submitSettle cfg (FormManager.submitWritten cfg s) true).touches =
      (FormManipulator.validate cfg s true).touches ∧
    (FormManager.submitSettle cfg (FormManager.submitWritten cfg s) true).isValid =
      (FormManipulator.validate cfg s true).isValid ∧
    (FormManager.submitSettle cfg (FormManager.submitWritten cfg s) true).existsChanges =
      s.existsChanges := by
  have hcond : (cfg.onSubmitConfigured &&
      (FormManager.submitValidated cfg s).isValid) = true := h
  have hw : FormManager.submitWritten cfg s =
      { FormManager.submitValidated cfg s with loading := true } := by
    unfold FormManager.submitWritten
    rw [hcond]
    simp only [if_true]
  have hst : FormManager.submitSettle cfg (FormManager.submitWritten cfg s) true =
      { FormManager.submitValidated cfg s with loading := false } := by
    rw [hw]
    rfl
  rw [hst]
  refine ⟨rfl, rfl, rfl, ?_, rfl, rfl, ?_⟩
  · show (FormManipulator.validate cfg s true).values = s.values
    exact validate_values cfg s true
  · show (FormManipulator.validate cfg s true).existsChanges = s.existsChanges
    exact validate_existsChanges cfg s true

/-- A form with an on-submit handler configured and no validators, so the
submit-time validation pass is valid and the handler is invoked. -/
def cfgSub : FormConfig := { cfgEmpty with onSubmitConfigured := true }

/-- Witness for C8 on a concrete invoked submission whose handler fails. -/
theorem c8_witness :
    (FormManager.submitSettle cfgSub
      (FormManager.submitWritten cfgSub (FormManager.initStoreState cfgSub)) true).loading = false ∧
    (FormManager.submitSettle cfgSub
      (FormManager.submitWritten cfgSub (FormManager.initStoreState cfgSub)) true).isSubmitted = true ∧
    (FormManager.submitSettle cfgSub
      (FormManager.submitWritten cfgSub (FormManager.initStoreState cfgSub)) true).errors =
      (FormManipulator.validate cfgSub (FormManager.initStoreState cfgSub) true).errors ∧
    (FormManager.submitSettle cfgSub
      (FormManager.submitWritten cfgSub (FormManager.initStoreState cfgSub)) true).values =
      (FormManager.initStoreState cfgSub).values ∧
    (FormManager.submitSettle cfgSub
      (FormManager.submitWritten cfgSub (FormManager.initStoreState cfgSub)) true).touches =
      (FormManipulator.validate cfgSub (FormManager.initStoreState cfgSub) true).touches ∧
    (FormManager.submitSettle cfgSub
      (FormManager.submitWritten cfgSub (FormManager.initStoreState cfgSub)) true).isValid =
      (FormManipulator.validate cfgSub (FormManager.initStoreState cfgSub) true).isValid ∧
    (FormManager.submitSettle cfgSub
      (FormManager.submitWritten cfgSub (FormManager.initStoreState cfgSub)) true).existsChanges =
      (FormManager.initStoreState cfgSub).existsChanges :=
  c8_submit_failure_swallows cfgSub (FormManager.initStoreState cfgSub) rfl

/-- C10: constructing a FormManager always runs the full validation pass:
for either value of the validateOnMount flag, the constructed state's
errors and isValid equal those of an unconditional validation pass over the
freshly initialized record; the flag is only forwarded as allTouched, so
with validateOnMount=false the touches tree stays the initial snapshot
while errors are still recomputed. -/
theorem c10_construct_always_validates (cfg : FormConfig) (b : Bool) :
    (FormManager.construct { cfg with validateOnMount := b }).errors =
      (FormManipulator.validate { cfg with validateOnMount := b }
        (FormManager.initStoreState { cfg with validateOnMount := b }) false).errors ∧
    (FormManager.construct { cfg with validateOnMount := b }).isValid =
      (FormManipulator.validate { cfg with validateOnMount := b }
        (FormManager.initStoreState { cfg with validateOnMount := b }) false).isValid ∧
    (b = false →
      (FormManager.construct { cfg with validateOnMount := b }).touches =
        cfg.initialTouches) := by
  have hc : FormManager.construct { cfg with validateOnMount := b } =
      FormManipulator.validate { cfg with validateOnMount := b }
        (FormManager.initStoreState { cfg with validateOnMount := b }) b := rfl
  refine ⟨?_, ?_, ?_⟩
  · rw [hc, validate_errors, validate_errors]
  · rw [hc, validate_isValid, validate_isValid]
  · intro hb
    subst hb
    rw [hc, validate_touches_false]
    rfl

/-- Witness for C10 with the validateOnMount flag off. -/
theorem c10_witness :
    (FormManager.construct { cfgEmpty with validateOnMount := false }).errors =
      (FormManipulator.validate { cfgEmpty with validateOnMount := false }
        (FormManager.initStoreState { cfgEmpty with validateOnMount := false }) false).errors ∧
    (FormManager.construct { cfgEmpty with validateOnMount := false }).isValid =
      (FormManipulator.validate { cfgEmpty with validateOnMount := false }
        (FormManager.initStoreState { cfgEmpty with validateOnMount := false }) false).isValid ∧
    (FormManager.construct { cfgEmpty with validateOnMount := false }).touches =
      cfgEmpty.initialTouches :=
  ⟨(c10_construct_always_validates cfgEmpty false).1,
   (c10_construct_always_validates cfgEmpty false).2.1,
   (c10_construct_always_validates cfgEmpty false).2.2 rfl⟩
